import Mathlib

/-!
Shallow embedding of the request-admission and resilience layer of the
Telegram/Gemini relay bot (source: `src/unnamed/part_000`, first version,
lines 1-287).  The embedded pieces are: the model roster and cursor, the
deduplication filter `shouldProcessOnce`, the rate limiter `createLimiter`
(its `pump` loop, specialised to `concurrency = 1` as configured at line 92),
the session store and `migrateSessionsToModel`, the retry/fallback controller
`callGeminiWithRetry`, the session-creation helper `createSessionForChat`,
and the message-handler flow around them.
-/

namespace Relay

/-! ### Roster and cursor (part_000 lines 36-46) -/

/-- The source roster `models` (part_000 lines 36-43), fixed at startup. -/
def models : List String :=
  ["gemini-2.5-flash", "gemini-2.5-flashlite", "gemini-2.5-pro",
   "gemini-2.0-flash", "gemini-1.5-flash", "gemini-1.5-pro"]

/-- The source reads `models[currentModelIndex]` (line 45); out-of-range reads
cannot occur while the cursor invariant holds, and are defaulted to `""`. -/
def modelNameAt (ms : List String) (idx : Nat) : String := ms.getD idx ""

/-! ### Error classification (part_000 lines 136-140)

A thrown error is observed through `err?.message` (a string) and the
coalesced `err?.status || err?.response?.status || null` (an optional
numeric status). -/

/-- The observable part of a thrown backend error. -/
structure ErrInfo where
  message : String
  status : Option Nat
deriving DecidableEq, Repr

/-- Substring test on character lists: some suffix of `hay` starts with
`needle`.  Used to embed the regex test on line 138. -/
def containsSub (hay needle : List Char) : Bool :=
  hay.tails.any (fun t => needle.isPrefixOf t)

/-- The case-insensitive pattern `/quota|too many requests|rate limit|rateLimit/i`
of line 138, as a lowercase substring search (note `rateLimit` lowercases to
`ratelimit`, distinct from `rate limit`). -/
def msgMatchesThrottle (msg : String) : Bool :=
  ["quota", "too many requests", "rate limit", "ratelimit"].any
    (fun w => containsSub (msg.data.map Char.toLower) w.data)

/-- Line 138: `status === 429 || pattern.test(msg)` — the THROTTLED
classification. -/
def is429 (e : ErrInfo) : Bool :=
  e.status == some 429 || msgMatchesThrottle e.message

/-! ### Turns, sessions and the session store (part_000 lines 48-50) -/

/-- Roles of history turns: `'system'`, `'user'`, `'model'`. -/
inductive Role where
  | system
  | user
  | model
deriving DecidableEq, Repr

/-- One `{role, text}` entry of a session history (line 49). -/
structure Turn where
  role : Role
  text : String
deriving DecidableEq, Repr

/-- The `systemPrompt` constant (line 50). -/
def systemPrompt : String :=
  "You are ChatGPT 5, a friendly, witty, and highly intelligent AI assistant. Write conversationally and helpfully."

/-- The greeting the source seeds every new session with (lines 174, 185). -/
def greetingText : String := "Hello, let's have a great conversation."

/-- A session (line 49: `chatId -> { modelName, chatInstance, history }`).
The opaque SDK `chatInstance` is represented by the history it was seeded
with when `startChat` was called (`chatSeed`): that seed is exactly what is
replayed to the backend model the instance is bound to. -/
structure Session where
  modelName : String
  chatSeed : List Turn
  history : List Turn
deriving DecidableEq, Repr

/-- The `chatSessions` table (line 49), keyed by chat id. -/
abbrev Store : Type := List (Nat × Session)

/-- Boolean form of the spec invariant: the history begins with exactly one
`system` turn before any `user`/`model` turn. -/
def beginsWithOneSystemB (h : List Turn) : Bool :=
  match h with
  | [] => false
  | t :: rest => t.role == Role.system && rest.all (fun u => !(u.role == Role.system))

/-! ### Dedup filter `shouldProcessOnce` (part_000 lines 53-61)

The `processedMsgIds` set with its `setTimeout` removals is embedded as a
list of `(messageId, removal deadline)` pairs: an entry added at time `now`
is scheduled for deletion at `now + dedupTTL`, so it is visible to `has`
exactly while the current time is below its deadline. -/

/-- The fixed 6-hour TTL, `6 * 60 * 60 * 1000` ms (line 59). -/
def dedupTTL : Nat := 6 * 60 * 60 * 1000

/-- The dedup set together with the pending timer deadlines. -/
structure DedupState where
  entries : List (Nat × Nat)
deriving DecidableEq, Repr

/-- `processedMsgIds.has(messageId)` at time `now`: some recorded entry for
this id whose scheduled removal has not yet fired. -/
def dedupMember (st : DedupState) (now : Nat) (id : Nat) : Bool :=
  st.entries.any (fun e => e.1 == id && decide (now < e.2))

/-- `shouldProcessOnce` (lines 54-61), with the current time made explicit:
no id processes unconditionally; a present id is rejected without mutation;
a new id is recorded with its removal scheduled `dedupTTL` later. -/
def shouldProcessOnce (st : DedupState) (now : Nat) (mid : Option Nat) :
    Bool × DedupState :=
  match mid with
  | none => (true, st)
  | some id =>
      if dedupMember st now id then (false, st)
      else (true, ⟨(id, now + dedupTTL) :: st.entries⟩)

/-! ### Rate limiter `createLimiter` (part_000 lines 64-92)

The limiter is constructed with `concurrency = 1` (line 92), so at every
moment at most one task is in flight and `pump` processes the FIFO queue
`q` sequentially: a task is dequeued when it is submitted and the slot is
free, or when the previous task settles (`setImmediate(pump)` in the
`finally`).  `limiterSchedule minGap last free calls` computes, for the
queued calls in submission order, the pair (start time, settled outcome):
`last` is the limiter's `last` variable (initially `0`, updated to the
start time just before `fn()` runs), `free` is the time the single
concurrency slot becomes free (initially `0`).  The dequeue time is
`max(submitTime, free)`; `wait = max(0, minGap - (dequeueTime - last))`
is the line-73 delay (truncated `Nat` subtraction is exactly the
`Math.max(0, ...)`); the task starts after that delay and runs for its
duration, settling via `resolve` or `reject` with its own outcome — the
`try/catch/finally` keeps pumping either way. -/

/-- A queued unit of work: submission time, run duration and its own
settlement (the `fn` closure's result or thrown error). -/
structure PendingCall where
  submitTime : Nat
  duration : Nat
  outcome : Except ErrInfo String
deriving Repr

/-- The `concurrency = 1` dispatch schedule of `pump` (lines 69-91). -/
def limiterSchedule (minGap : Nat) :
    Nat → Nat → List PendingCall → List (Nat × Except ErrInfo String)
  | _, _, [] => []
  | last, free, c :: rest =>
      let dequeueTime := max c.submitTime free
      let wait := minGap - (dequeueTime - last)
      let start := dequeueTime + wait
      (start, c.outcome) :: limiterSchedule minGap start (start + c.duration) rest

/-! ### Session creation (part_000 lines 170-189) and history handling -/

/-- `createSessionForChat` (lines 170-189) for the cursor at `idx`: the
session is bound to `models[idx]`, its `startChat` seed and its stored
`history` both being the system prompt followed by the fixed greeting
user turn. -/
def createSessionForChat (idx : Nat) : Session :=
  { modelName := modelNameAt models idx,
    chatSeed := [⟨Role.system, systemPrompt⟩, ⟨Role.user, greetingText⟩],
    history := [⟨Role.system, systemPrompt⟩, ⟨Role.user, greetingText⟩] }

/-! ### Session migration `migrateSessionsToModel` (part_000 lines 95-123) -/

/-- Lines 102-109: the backend-ready representation of a history — the
turn-by-turn mapping to SDK shape (role and text preserved), prefixing the
system prompt only when no `system` role is present anywhere. -/
def historyForSDK (prompt : String) (h : List Turn) : List Turn :=
  if h.any (fun t => t.role == Role.system) then h
  else ⟨Role.system, prompt⟩ :: h

/-- The per-session body of the `map` at lines 98-121.  `ok` records whether
`startChat` against the new model succeeded for this session: on success the
session's `chatInstance` and `modelName` are replaced (lines 114-115), on
failure the session is kept as is (line 119).  The stored `history` is not
touched in either case. -/
def migrateSession (newModelName : String) (ok : Bool) (s : Session) : Session :=
  if ok then
    { s with modelName := newModelName, chatSeed := historyForSDK systemPrompt s.history }
  else s

/-- `migrateSessionsToModel(newIndex)` (lines 95-123): every session in the
store is migrated best-effort; `oks cid` is whether the backend call for
chat `cid` succeeded. -/
def migrateSessionsToModel (ms : List String) (newIndex : Nat) (oks : Nat → Bool)
    (store : Store) : Store :=
  store.map (fun p => (p.1, migrateSession (modelNameAt ms newIndex) (oks p.1) p.2))

/-! ### Retry/fallback controller `callGeminiWithRetry` (part_000 lines 126-167)

The loop is embedded with the mutable `currentModelIndex` passed as
explicit state and an instrumentation record collecting what the loop did:
its returned/thrown result, the final cursor, how many times the task ran,
the cursor value after each run's failure handling (or at success), the
backoff sleeps performed, and the `migrateSessionsToModel` invocations.
`outcomes j` is the settlement of the `j`-th run of `taskFn` through the
limiter. -/

/-- One run of the task through the limiter: it either resolves with text
or rejects with an error. -/
inductive TaskOutcome where
  | ok (text : String)
  | err (e : ErrInfo)
deriving DecidableEq, Repr

/-- Whether a run's settlement is a THROTTLED-classified failure. -/
def throttledB : TaskOutcome → Bool
  | TaskOutcome.ok _ => false
  | TaskOutcome.err e => is429 e

/-- Line 162: `Math.min(30000, 1000 * 2 ** attempt)`. -/
def backoffMs (attempt : Nat) : Nat := min 30000 (1000 * 2 ^ attempt)

/-- Instrumented observation of one `callGeminiWithRetry` execution. -/
structure RetryTrace where
  result : Except ErrInfo String
  finalIdx : Nat
  attempts : Nat
  idxTrace : List Nat
  sleeps : List Nat
  migrations : List Nat
deriving Repr

/-- The `while (true)` loop of lines 130-166.  `rosterLen = models.length`,
`attempt` is the source counter (incremented at line 135 on each failure),
`idx` is `currentModelIndex`, `k` counts the runs of the task.  On a
non-THROTTLED failure the error is rethrown at once (line 140); on a
THROTTLED failure the cursor escalates by one and sessions migrate iff it
is not at the last entry (lines 145-153), then the error is rethrown if
`attempt >= maxAttempts` (lines 158-160), else the loop sleeps the line-162
backoff and runs the task again. -/
def retryGo (rosterLen maxAttempts : Nat) (outcomes : Nat → TaskOutcome)
    (k attempt idx : Nat) : RetryTrace :=
  match outcomes k with
  | TaskOutcome.ok t =>
      { result := Except.ok t, finalIdx := idx, attempts := 1,
        idxTrace := [idx], sleeps := [], migrations := [] }
  | TaskOutcome.err e =>
      let attemptN := attempt + 1
      if is429 e then
        let escalate := idx < rosterLen - 1
        let idxN := if escalate then idx + 1 else idx
        let migs := if escalate then [idxN] else []
        if h : maxAttempts ≤ attemptN then
          { result := Except.error e, finalIdx := idxN, attempts := 1,
            idxTrace := [idxN], sleeps := [], migrations := migs }
        else
          let rest := retryGo rosterLen maxAttempts outcomes (k + 1) attemptN idxN
          { result := rest.result, finalIdx := rest.finalIdx,
            attempts := rest.attempts + 1,
            idxTrace := idxN :: rest.idxTrace,
            sleeps := backoffMs attemptN :: rest.sleeps,
            migrations := migs ++ rest.migrations }
      else
        { result := Except.error e, finalIdx := idx, attempts := 1,
          idxTrace := [idx], sleeps := [], migrations := [] }
termination_by maxAttempts - attempt
decreasing_by omega

/-- `callGeminiWithRetry(taskFn, { maxAttempts })` (lines 126-167) started
with `attempt = 0` (line 128) and the cursor at `idx0`. -/
def callGeminiWithRetry (ms : List String) (maxAttempts idx0 : Nat)
    (outcomes : Nat → TaskOutcome) : RetryTrace :=
  retryGo ms.length maxAttempts outcomes 0 0 idx0

/-! ### The message-handler task closure (part_000 lines 221-231) -/

/-- The fixed fallback returned when the backend text is empty or missing
(line 230). -/
def fallbackReply : String := "Sorry, I couldn't produce a response."

/-- The shape of `response.text` observed at line 229: a function returning
a string, a plain string value, or absent. -/
inductive RespText where
  | funcVal (s : String)
  | plainVal (s : String)
  | missing
deriving DecidableEq, Repr

/-- Line 229 normalisation: call it when it is a function, take it when it
is a value, and an absent field yields no text. -/
def respTextValue : RespText → Option String
  | RespText.funcVal s => some s
  | RespText.plainVal s => some s
  | RespText.missing => none

/-- The value returned by the task closure (lines 221-231): the normalised
text, or `fallbackReply` when it is missing or empty (`text || fallback`,
line 230). -/
def taskReply (rt : RespText) : String :=
  match respTextValue rt with
  | none => fallbackReply
  | some t => if t = "" then fallbackReply else t

/-! ### Message-handler state transitions (part_000 lines 192-247)

For the session-store claims the handler's effects on `chatSessions` are
the events below: lazy session creation (lines 211-215), the user-turn
append (line 218), the model-turn append after a successful call
(line 234), and a migration triggered inside the retry controller. -/

/-- Append one turn to the history of the session for `cid`, if present. -/
def appendTurn (store : Store) (cid : Nat) (t : Turn) : Store :=
  store.map (fun p =>
    if p.1 == cid then (p.1, { p.2 with history := p.2.history ++ [t] }) else p)

/-- The store-mutating events of the handler and controller. -/
inductive SysEvent where
  | create (cid idx : Nat)
  | appendUser (cid : Nat) (text : String)
  | appendModel (cid : Nat) (text : String)
  | migrate (ms : List String) (newIndex : Nat) (oks : Nat → Bool)

/-- Effect of one event on the session store.  `create` inserts only when
the chat has no session yet (line 212: `if (!session)`). -/
def stepEvent (store : Store) : SysEvent → Store
  | SysEvent.create cid idx =>
      if (store.lookup cid).isSome then store
      else (cid, createSessionForChat idx) :: store
  | SysEvent.appendUser cid t => appendTurn store cid ⟨Role.user, t⟩
  | SysEvent.appendModel cid t => appendTurn store cid ⟨Role.model, t⟩
  | SysEvent.migrate ms newIndex oks => migrateSessionsToModel ms newIndex oks store

/-- The store reached from process start (empty table, line 49) by a
sequence of handler events. -/
def runEvents (events : List SysEvent) : Store :=
  events.foldl stepEvent ([] : Store)

/-- The handler flow for the first non-command message of a fresh chat,
with a successful backend call: create the session at cursor `idx`
(line 214), push the user turn (line 218), push the model reply
(line 234). -/
def handleFirstMessage (idx : Nat) (userMessage replyText : String) : Session :=
  let s0 := createSessionForChat idx
  let s1 := { s0 with history := s0.history ++ [Turn.mk Role.user userMessage] }
  { s1 with history := s1.history ++ [Turn.mk Role.model replyText] }

/-! ### Derived notions used by the statements -/

/-- The cursor update performed by one THROTTLED failure (lines 145-156):
advance by one iff the cursor is not at the last roster entry. -/
def escStep (R a : Nat) : Nat := if a < R - 1 then a + 1 else a

/-- The store-wide history invariant: every live session's history begins
with exactly one `system` turn. -/
def storeInv (store : Store) : Prop :=
  ∀ p ∈ store, beginsWithOneSystemB (Prod.snd p).history = true

end Relay

namespace Relay

/-! ## Theorems -/

/-! ### Retry/fallback controller: helper lemmas -/

/-- Under permanently THROTTLED outcomes, one pass of the retry loop runs
the task `max (maxAttempts - attempt) 1` times, rethrows the last run's
error, and the cursor values after each failure form an `escStep` chain
from the starting cursor. -/
theorem retryGo_throttled_spine (R : Nat) (outcomes : Nat → TaskOutcome)
    (hthr : ∀ j, throttledB (outcomes j) = true) :
    ∀ (n maxAttempts k attempt idx : Nat), n = maxAttempts - attempt →
      (retryGo R maxAttempts outcomes k attempt idx).attempts
          = max (maxAttempts - attempt) 1 ∧
      (∃ e, outcomes (k + (retryGo R maxAttempts outcomes k attempt idx).attempts - 1)
            = TaskOutcome.err e ∧
        (retryGo R maxAttempts outcomes k attempt idx).result = Except.error e) ∧
      List.Chain' (fun a b => b = escStep R a)
        (idx :: (retryGo R maxAttempts outcomes k attempt idx).idxTrace) := by
  intro n
  induction n with
  | zero =>
      intro maxAttempts k attempt idx hn
      obtain ⟨e, hek, h429⟩ : ∃ e, outcomes k = TaskOutcome.err e ∧ is429 e = true := by
        have h := hthr k
        cases hek : outcomes k with
        | ok t => rw [hek] at h; simp [throttledB] at h
        | err e => rw [hek] at h; exact ⟨e, rfl, h⟩
      have hstop : maxAttempts ≤ attempt + 1 := by omega
      rw [retryGo, hek]
      simp only [h429, if_true, dif_pos hstop]
      refine ⟨by simp; omega, ⟨e, by simpa using hek, rfl⟩, ?_⟩
      simp [escStep]
  | succ m ih =>
      intro maxAttempts k attempt idx hn
      obtain ⟨e, hek, h429⟩ : ∃ e, outcomes k = TaskOutcome.err e ∧ is429 e = true := by
        have h := hthr k
        cases hek : outcomes k with
        | ok t => rw [hek] at h; simp [throttledB] at h
        | err e => rw [hek] at h; exact ⟨e, rfl, h⟩
      rw [retryGo, hek]
      by_cases hstop : maxAttempts ≤ attempt + 1
      · simp only [h429, if_true, dif_pos hstop]
        refine ⟨by simp; omega, ⟨e, by simpa using hek, rfl⟩, ?_⟩
        simp [escStep]
      · simp only [h429, if_true, dif_neg hstop]
        have hm : m = maxAttempts - (attempt + 1) := by omega
        obtain ⟨ha, ⟨e2, he2, hr2⟩, hch⟩ :=
          ih maxAttempts (k + 1) (attempt + 1) (if idx < R - 1 then idx + 1 else idx) hm
        refine ⟨by simp [ha]; omega, ⟨e2, ?_, by simpa using hr2⟩, ?_⟩
        · have hidx : k + ((retryGo R maxAttempts outcomes (k + 1) (attempt + 1)
              (if idx < R - 1 then idx + 1 else idx)).attempts + 1) - 1
              = k + 1 + (retryGo R maxAttempts outcomes (k + 1) (attempt + 1)
              (if idx < R - 1 then idx + 1 else idx)).attempts - 1 := by
            omega
          simpa [hidx] using he2
        · simp only [List.chain'_cons]
          exact ⟨rfl, hch⟩

/-- Every value along an `escStep` chain whose head is below `R` stays
below `R`. -/
theorem escChain_lt (R : Nat) :
    ∀ (l : List Nat) (x : Nat), x < R →
      List.Chain' (fun a b => b = escStep R a) (x :: l) →
      ∀ y ∈ x :: l, y < R := by
  intro l
  induction l with
  | nil =>
      intro x hx _ y hy
      simp only [List.mem_singleton] at hy
      omega
  | cons z l ih =>
      intro x hx hch y hy
      rw [List.chain'_cons] at hch
      have hz : z < R := by
        have := hch.1
        unfold escStep at this
        split at this <;> omega
      rcases List.mem_cons.mp hy with hy | hy
      · omega
      · exact ih z hz hch.2 y hy

/-- Closed form of an `escStep` chain: the `i`-th value is the head plus
`i`, capped at the last roster index. -/
theorem escChain_get (R : Nat) :
    ∀ (l : List Nat) (x i : Nat), x ≤ R - 1 →
      List.Chain' (fun a b => b = escStep R a) (x :: l) →
      ∀ h : i < (x :: l).length, (x :: l).get ⟨i, h⟩ = min (x + i) (R - 1) := by
  intro l
  induction l with
  | nil =>
      intro x i hx _ h
      simp only [List.length_singleton] at h
      interval_cases i
      simp
      omega
  | cons z l ih =>
      intro x i hx hch h
      rw [List.chain'_cons] at hch
      have hz : z ≤ R - 1 := by
        have := hch.1
        unfold escStep at this
        split at this <;> omega
      match i with
      | 0 =>
          simp
          omega
      | Nat.succ j =>
          have hj : j < (z :: l).length := by
            simp at h ⊢
            omega
          have := ih z j hz hch.2 hj
          simp only [List.get_cons_succ]
          rw [this]
          have := hch.1
          unfold escStep at this
          split at this <;> omega

/-! ### Claims C1-C3: the retry/fallback controller -/

/-- Claim C1: when the task fails with a THROTTLED-classified error on
every attempt and the roster has `R = ms.length` entries, the cursor is
monotonically non-decreasing, always stays within `0 ≤ idx < R`, advances
by exactly one on each THROTTLED failure while it is not at the last
roster entry (and is unchanged once there, so no further escalation occurs
after the `R - 1`-th one), and its value after `i` failures is exactly
`min (idx0 + i) (R - 1)` — in particular, from `idx0 = 0` it sits at the
last roster index `R - 1` from the `R - 1`-th escalation on. -/
theorem throttled_cursor_escalation (ms : List String) (maxAttempts idx0 : Nat)
    (outcomes : Nat → TaskOutcome)
    (hthr : ∀ j, throttledB (outcomes j) = true)
    (hR : 0 < ms.length) (h0 : idx0 < ms.length) :
    List.Chain' (fun a b => b = escStep ms.length a)
      (idx0 :: (callGeminiWithRetry ms maxAttempts idx0 outcomes).idxTrace) ∧
    List.Chain' (fun a b => a ≤ b)
      (idx0 :: (callGeminiWithRetry ms maxAttempts idx0 outcomes).idxTrace) ∧
    (∀ y ∈ idx0 :: (callGeminiWithRetry ms maxAttempts idx0 outcomes).idxTrace,
      y < ms.length) ∧
    (∀ i, ∀ h : i < (idx0 :: (callGeminiWithRetry ms maxAttempts idx0 outcomes).idxTrace).length,
      (idx0 :: (callGeminiWithRetry ms maxAttempts idx0 outcomes).idxTrace).get ⟨i, h⟩
        = min (idx0 + i) (ms.length - 1)) := by
  have hch := (retryGo_throttled_spine ms.length outcomes hthr
    (maxAttempts - 0) maxAttempts 0 0 idx0 rfl).2.2
  refine ⟨hch, ?_, ?_, ?_⟩
  · exact hch.imp (fun a b hab => by subst hab; unfold escStep; split <;> omega)
  · exact escChain_lt ms.length _ idx0 h0 hch
  · intro i h
    exact escChain_get ms.length _ idx0 i (by omega) hch h

/-- Witness for C1 on the concrete roster and a permanently rate-limited
task. -/
theorem throttled_cursor_escalation_witness :
    List.Chain' (fun a b => b = escStep models.length a)
      (0 :: (callGeminiWithRetry models 3 0
        (fun _ => TaskOutcome.err ⟨"rate limit", some 429⟩)).idxTrace) :=
  (throttled_cursor_escalation models 3 0
    (fun _ => TaskOutcome.err ⟨"rate limit", some 429⟩) (fun _ => rfl)
    (by decide) (by decide)).1

/-- Claim C2: with `maxAttempts = 3`, a task that fails with a
THROTTLED-classified error on every attempt is attempted exactly 3 times
(hence at most 3 times — the loop never retries indefinitely) and the call
then propagates the task's own last error. -/
theorem throttled_retry_bounded (ms : List String) (idx0 : Nat)
    (outcomes : Nat → TaskOutcome)
    (hthr : ∀ j, throttledB (outcomes j) = true) :
    (callGeminiWithRetry ms 3 idx0 outcomes).attempts = 3 ∧
    (callGeminiWithRetry ms 3 idx0 outcomes).attempts ≤ 3 ∧
    (∃ e, outcomes ((callGeminiWithRetry ms 3 idx0 outcomes).attempts - 1)
        = TaskOutcome.err e ∧
      (callGeminiWithRetry ms 3 idx0 outcomes).result = Except.error e) := by
  obtain ⟨ha, ⟨e, he, hr⟩, -⟩ := retryGo_throttled_spine ms.length outcomes hthr
    3 3 0 0 idx0 rfl
  refine ⟨by simpa using ha, by simp [callGeminiWithRetry]; omega, ⟨e, ?_, hr⟩⟩
  simpa using he

/-- Witness for C2 on the concrete roster and a permanently rate-limited
task. -/
theorem throttled_retry_bounded_witness :
    (callGeminiWithRetry models 3 0
      (fun _ => TaskOutcome.err ⟨"rate limit", some 429⟩)).attempts = 3 :=
  (throttled_retry_bounded models 0
    (fun _ => TaskOutcome.err ⟨"rate limit", some 429⟩) (fun _ => rfl)).1

/-- Claim C3: a task whose first failure is OTHER-classified (not status
429 and not matching the rate-limit/quota pattern, i.e. `is429 = false`)
is attempted exactly once and its error propagates immediately: no backoff
sleep, no cursor escalation, and no session migration happen. -/
theorem other_error_single_attempt (ms : List String) (maxAttempts idx0 : Nat)
    (outcomes : Nat → TaskOutcome) (e : ErrInfo)
    (h0 : outcomes 0 = TaskOutcome.err e) (hother : is429 e = false) :
    callGeminiWithRetry ms maxAttempts idx0 outcomes =
      { result := Except.error e, finalIdx := idx0, attempts := 1,
        idxTrace := [idx0], sleeps := [], migrations := [] } := by
  unfold callGeminiWithRetry
  rw [retryGo, h0]
  simp [hother]

/-- Witness for C3 on a task failing with a non-throttling error. -/
theorem other_error_single_attempt_witness :
    callGeminiWithRetry models 3 0 (fun _ => TaskOutcome.err ⟨"boom", none⟩) =
      { result := Except.error ⟨"boom", none⟩, finalIdx := 0, attempts := 1,
        idxTrace := [0], sleeps := [], migrations := [] } :=
  other_error_single_attempt models 3 0 _ ⟨"boom", none⟩ rfl (by decide)

/-! ### Claims C4-C5: the admission queue -/

/-- Prepending the limiter's `last` value to the start times gives a chain
in which consecutive elements are at least `minGap` apart, provided the
slot frees no earlier than `last`. -/
theorem limiterSchedule_gap (minGap : Nat) :
    ∀ (calls : List PendingCall) (last free : Nat), last ≤ free →
      List.Chain' (fun a b => a + minGap ≤ b)
        (last :: (limiterSchedule minGap last free calls).map Prod.fst) := by
  intro calls
  induction calls with
  | nil =>
      intro last free _
      simp [limiterSchedule]
  | cons c rest ih =>
      intro last free hlf
      simp only [limiterSchedule, List.map_cons]
      rw [List.chain'_cons]
      constructor
      · have h1 : free ≤ max c.submitTime free := Nat.le_max_right _ _
        omega
      · exact ih _ _ (Nat.le_add_right _ _)

/-- Claim C4: with `concurrency = 1`, tasks are dispatched strictly in
submission order — their start times are non-decreasing, and each pair of
consecutive starts is separated by at least `minGap` milliseconds,
regardless of the tasks' durations. -/
theorem limiter_fifo_spacing (minGap : Nat) (calls : List PendingCall) :
    List.Chain' (fun a b => a ≤ b)
      ((limiterSchedule minGap 0 0 calls).map Prod.fst) ∧
    List.Chain' (fun a b => a + minGap ≤ b)
      ((limiterSchedule minGap 0 0 calls).map Prod.fst) := by
  have h := (limiterSchedule_gap minGap calls 0 0 (Nat.le_refl 0)).tail
  simp only [List.tail_cons] at h
  exact ⟨h.imp (fun a b hab => by omega), h⟩

/-- Claim C5: every queued task is dispatched and settles with its own
outcome only — a throwing task rejects only its own returned future, and
every task queued after it still runs (the schedule has one entry per
queued call, in order, carrying that call's own outcome). -/
theorem limiter_error_isolation (minGap : Nat) (calls : List PendingCall) :
    ∀ last free,
      (limiterSchedule minGap last free calls).map Prod.snd
          = calls.map PendingCall.outcome ∧
      (limiterSchedule minGap last free calls).length = calls.length := by
  induction calls with
  | nil => intro last free; simp [limiterSchedule]
  | cons c rest ih =>
      intro last free
      simp only [limiterSchedule, List.map_cons, List.length_cons]
      exact ⟨by rw [(ih _ _).1], by rw [(ih _ _).2]⟩

/-! ### Claims C6-C7: migration and the history invariant -/

/-- Migration never touches a session's stored history. -/
theorem migrateSession_history (nm : String) (ok : Bool) (s : Session) :
    (migrateSession nm ok s).history = s.history := by
  unfold migrateSession
  split <;> rfl

/-- For a history satisfying the leading-system invariant, the SDK
representation is the history itself (no defensive prefix is added). -/
theorem historyForSDK_of_inv (prompt : String) (h : List Turn)
    (hinv : beginsWithOneSystemB h = true) : historyForSDK prompt h = h := by
  cases h with
  | nil => simp [beginsWithOneSystemB] at hinv
  | cons t rest =>
      simp only [beginsWithOneSystemB, Bool.and_eq_true, beq_iff_eq] at hinv
      unfold historyForSDK
      rw [if_pos]
      simp [hinv.1]

/-- Appending a non-system turn preserves the leading-system invariant. -/
theorem beginsWithOneSystemB_append (h : List Turn) (t : Turn)
    (hinv : beginsWithOneSystemB h = true) (ht : t.role ≠ Role.system) :
    beginsWithOneSystemB (h ++ [t]) = true := by
  cases h with
  | nil => simp [beginsWithOneSystemB] at hinv
  | cons u rest =>
      simp only [beginsWithOneSystemB, Bool.and_eq_true, beq_iff_eq] at hinv
      simp only [List.cons_append, beginsWithOneSystemB, Bool.and_eq_true, beq_iff_eq,
        List.all_append, List.all_cons, List.all_nil]
      refine ⟨hinv.1, hinv.2, ?_, trivial⟩
      simpa using ht

/-- Claim C6: after `migrateSessionsToModel(newIndex)` completes, every
session of the store is present in the result with its stored history
unchanged; for a session whose `startChat` succeeded, the representation
replayed to the new model is exactly its prior history (every prior turn
in original order, with exactly one leading system turn) and its binding
moves to the new model name; for a session whose migration failed, its
`modelName` and chat instance are left untouched — and the remaining
sessions are migrated regardless. -/
theorem migration_preserves_sessions (ms : List String) (newIndex : Nat)
    (oks : Nat → Bool) (store : Store)
    (hinv : ∀ p ∈ store, beginsWithOneSystemB (Prod.snd p).history = true) :
    ∀ p ∈ store,
      (p.1, migrateSession (modelNameAt ms newIndex) (oks p.1) p.2)
          ∈ migrateSessionsToModel ms newIndex oks store ∧
      (migrateSession (modelNameAt ms newIndex) (oks p.1) p.2).history = p.2.history ∧
      (oks p.1 = false →
        migrateSession (modelNameAt ms newIndex) (oks p.1) p.2 = p.2) ∧
      (oks p.1 = true →
        (migrateSession (modelNameAt ms newIndex) (oks p.1) p.2).chatSeed = p.2.history ∧
        beginsWithOneSystemB
          (migrateSession (modelNameAt ms newIndex) (oks p.1) p.2).chatSeed = true ∧
        (migrateSession (modelNameAt ms newIndex) (oks p.1) p.2).modelName
          = modelNameAt ms newIndex) := by
  intro p hp
  refine ⟨?_, migrateSession_history _ _ _, ?_, ?_⟩
  · exact List.mem_map_of_mem
      (fun q => (q.1, migrateSession (modelNameAt ms newIndex) (oks q.1) q.2)) hp
  · intro hok
    unfold migrateSession
    rw [hok]
    rfl
  · intro hok
    have hseed : (migrateSession (modelNameAt ms newIndex) (oks p.1) p.2).chatSeed
        = historyForSDK systemPrompt p.2.history := by
      unfold migrateSession
      rw [hok]
      rfl
    have hrep := historyForSDK_of_inv systemPrompt p.2.history (hinv p hp)
    refine ⟨by rw [hseed, hrep], by rw [hseed, hrep]; exact hinv p hp, ?_⟩
    unfold migrateSession
    rw [hok]
    rfl

/-- Witness for C6 on a one-session store migrating to roster entry 1. -/
theorem migration_preserves_sessions_witness :
    (migrateSession (modelNameAt models 1) true (createSessionForChat 0)).chatSeed
      = (createSessionForChat 0).history :=
  ((migration_preserves_sessions models 1 (fun _ => true)
      [(1, createSessionForChat 0)] (by decide) (1, createSessionForChat 0)
      (by decide)).2.2.2 rfl).1

/-- Appending a non-system turn to one session preserves the store-wide
invariant. -/
theorem storeInv_appendTurn (store : Store) (cid : Nat) (t : Turn)
    (ht : t.role ≠ Role.system) (hs : storeInv store) :
    storeInv (appendTurn store cid t) := by
  intro p hp
  unfold appendTurn at hp
  obtain ⟨q, hq, hfq⟩ := List.mem_map.mp hp
  by_cases hc : q.1 == cid
  · rw [if_pos hc] at hfq
    subst hfq
    exact beginsWithOneSystemB_append _ _ (hs q hq) ht
  · rw [if_neg hc] at hfq
    subst hfq
    exact hs q hq

/-- Every handler event preserves the store-wide invariant. -/
theorem storeInv_step (store : Store) (ev : SysEvent) (hs : storeInv store) :
    storeInv (stepEvent store ev) := by
  cases ev with
  | create cid idx =>
      simp only [stepEvent]
      split
      · exact hs
      · intro p hp
        rcases List.mem_cons.mp hp with hp | hp
        · subst hp
          rfl
        · exact hs p hp
  | appendUser cid t =>
      exact storeInv_appendTurn store cid ⟨Role.user, t⟩ (fun h => Role.noConfusion h) hs
  | appendModel cid t =>
      exact storeInv_appendTurn store cid ⟨Role.model, t⟩ (fun h => Role.noConfusion h) hs
  | migrate ms newIndex oks =>
      intro p hp
      simp only [stepEvent] at hp
      unfold migrateSessionsToModel at hp
      obtain ⟨q, hq, hfq⟩ := List.mem_map.mp hp
      subst hfq
      rw [migrateSession_history]
      exact hs q hq

/-- The invariant propagates through any event sequence. -/
theorem storeInv_foldl (events : List SysEvent) :
    ∀ store, storeInv store → storeInv (events.foldl stepEvent store) := by
  induction events with
  | nil => intro store hs; exact hs
  | cons ev rest ih =>
      intro store hs
      exact ih _ (storeInv_step store ev hs)

/-- Claim C7: at every reachable point of execution (any sequence of
session creations, user/model appends and migrations starting from the
empty table), every session's stored history begins with exactly one
system turn before any user or model turn: creation establishes it,
message handling only appends user/model turns, and migration leaves the
history untouched. -/
theorem session_history_invariant (events : List SysEvent) :
    ∀ p ∈ runEvents events, beginsWithOneSystemB (Prod.snd p).history = true :=
  storeInv_foldl events [] (by intro p hp; simp at hp)

/-- Witness for C7 on the store reached by a single session creation. -/
theorem session_history_invariant_witness :
    beginsWithOneSystemB (createSessionForChat 0).history = true :=
  session_history_invariant [SysEvent.create 1 0] (1, createSessionForChat 0) (by decide)

/-! ### Claim C8: the first-message scenario -/

/-- Claim C8 counterexample: on the first message "hello" of conversation
1, the session is NOT created with history `[system, user:"hello"]`, and
after the successful backend call the history is NOT
`[system, user:"hello", model:"reply text"]` — the source seeds every new
session with a fixed greeting user turn before appending the inbound
message. -/
theorem first_message_history_mismatch :
    (((createSessionForChat 0).history
        == [⟨Role.system, systemPrompt⟩, ⟨Role.user, "hello"⟩]) = false) ∧
    (((handleFirstMessage 0 "hello" "reply text").history
        == [⟨Role.system, systemPrompt⟩, ⟨Role.user, "hello"⟩,
            ⟨Role.model, "reply text"⟩]) = false) := by
  decide

/-- Claim C8 (amended): when a conversation sends its first message, a
session is created bound to the roster's current model with history
`[system, user:greeting]`, the inbound user turn is appended, and after
the backend call succeeds the history is
`[system, user:greeting, user:message, model:reply]`. -/
theorem first_message_history_amended (idx : Nat) (u r : String) :
    (handleFirstMessage idx u r).modelName = modelNameAt models idx ∧
    (handleFirstMessage idx u r).history =
      [⟨Role.system, systemPrompt⟩, ⟨Role.user, greetingText⟩,
       ⟨Role.user, u⟩, ⟨Role.model, r⟩] :=
  ⟨rfl, rfl⟩

/-! ### Claim C9: the dedup filter -/

/-- A message id that is not live in the set at `t0` is not live at any
later time either (deadlines are fixed when the entry is added). -/
theorem dedupMember_mono (st : DedupState) (t0 t id : Nat)
    (hm : dedupMember st t0 id = false) (ht : t0 ≤ t) :
    dedupMember st t id = false := by
  unfold dedupMember at hm ⊢
  rw [List.any_eq_false] at hm ⊢
  intro e he
  have h := hm e he
  simp only [Bool.and_eq_true, beq_iff_eq, decide_eq_true_eq] at h ⊢
  intro hc
  exact h ⟨hc.1, by omega⟩

/-- Claim C9: the first `shouldProcessOnce id` call returns true and
records the id with removal scheduled after the fixed 6-hour TTL; every
call with the same id before the TTL elapses returns false and performs no
mutation; once the TTL has elapsed the same id is processed again as true;
and with no id, the call returns true without recording anything. -/
theorem dedup_ttl_behaviour (st : DedupState) (t0 id : Nat)
    (hfresh : dedupMember st t0 id = false) :
    (shouldProcessOnce st t0 (some id)).1 = true ∧
    (shouldProcessOnce st t0 (some id)).2.entries = (id, t0 + dedupTTL) :: st.entries ∧
    (∀ t, t < t0 + dedupTTL →
      shouldProcessOnce (shouldProcessOnce st t0 (some id)).2 t (some id)
        = (false, (shouldProcessOnce st t0 (some id)).2)) ∧
    (∀ t, t0 + dedupTTL ≤ t →
      (shouldProcessOnce (shouldProcessOnce st t0 (some id)).2 t (some id)).1 = true) ∧
    (∀ now, shouldProcessOnce st now none = (true, st)) := by
  have hst : shouldProcessOnce st t0 (some id)
      = (true, ⟨(id, t0 + dedupTTL) :: st.entries⟩) := by
    simp [shouldProcessOnce, hfresh]
  refine ⟨by rw [hst], by rw [hst], ?_, ?_, fun now => rfl⟩
  · intro t ht
    rw [hst]
    have hmem : dedupMember ⟨(id, t0 + dedupTTL) :: st.entries⟩ t id = true := by
      unfold dedupMember
      simp [ht]
    simp [shouldProcessOnce, hmem]
  · intro t ht
    rw [hst]
    have hrest := dedupMember_mono st t0 t id hfresh (by omega)
    have hmem : dedupMember ⟨(id, t0 + dedupTTL) :: st.entries⟩ t id = false := by
      unfold dedupMember at hrest ⊢
      simp only [List.any_cons, hrest, Bool.or_false]
      simp only [beq_self_eq_true, Bool.true_and, decide_eq_false_iff_not]
      omega
    simp [shouldProcessOnce, hmem]

/-- Witness for C9: a fresh id on the empty dedup set. -/
theorem dedup_ttl_behaviour_witness :
    (shouldProcessOnce ⟨[]⟩ 0 (some 5)).1 = true ∧
    (shouldProcessOnce ⟨[]⟩ 0 (some 5)).2.entries = [(5, 0 + dedupTTL)] :=
  ⟨(dedup_ttl_behaviour ⟨[]⟩ 0 5 rfl).1, (dedup_ttl_behaviour ⟨[]⟩ 0 5 rfl).2.1⟩

/-! ### Claim C10: the task closure's reply -/

/-- Claim C10: the task closure always returns a non-empty string — it
accepts `response.text` as a function or as a plain value (both are
normalised identically), and when the text is missing or empty it returns
the fixed fallback string, so the reply appended to history and sent to
the user on success is never empty. -/
theorem task_reply_nonempty :
    (∀ rt : RespText, 0 < (taskReply rt).length) ∧
    (∀ s : String, taskReply (RespText.funcVal s) = taskReply (RespText.plainVal s)) := by
  constructor
  · intro rt
    have hfb : 0 < fallbackReply.length := by decide
    cases rt with
    | missing => exact hfb
    | funcVal s =>
        simp only [taskReply, respTextValue]
        split
        · exact hfb
        · rename_i hs
          cases s with
          | mk data =>
              cases data with
              | nil => simp at hs
              | cons c cs => simp [String.length]
    | plainVal s =>
        simp only [taskReply, respTextValue]
        split
        · exact hfb
        · rename_i hs
          cases s with
          | mk data =>
              cases data with
              | nil => simp at hs
              | cons c cs => simp [String.length]
  · intro s
    rfl

end Relay
